import Mathlib

/-!
Shallow embedding of the casino bot's core logic (src/main.py):
the odds engine (tier win-rate lookup), the single-player game
resolvers (coinflip, blackjack, roulette, slot, dice), the bet
validation common to the game commands, the PvP resolvers, and the
persistence/backup subsystem (snapshot pruning, restore on corrupt
load).

Balances are modelled as `Int` (Python integers can in principle go
negative on subtraction, which is exactly what the non-negativity
invariant is about).  Probability draws from `random.random()` are
modelled as rationals in `[0,1)`; the float constants of the odds
table (0.35, 0.30, ...) are exact decimals, rendered as the same
rationals.  `int(bet * payout)` with a positive integer `bet` and a
decimal payout multiplier `p/q` is modelled as `bet * p / q` on `Int`
(truncation and floor agree on the non-negative values that occur).
-/

namespace Casino

/-- Which of the two balances games debit/credit (the `"mode"` field). -/
inductive Mode
  | trial
  | premium
deriving DecidableEq, Repr

/-- A user's ledger entry: the fields of `balances[uid]` that the game
resolvers read or write (`trial`, `premium`, `mode`, `bets`, `wins`,
`losses`). -/
structure User where
  trial : Int
  premium : Int
  mode : Mode
  bets : Nat
  wins : Nat
  losses : Nat
deriving DecidableEq, Repr

/-- The active-mode balance, `user[user["mode"]]`. -/
def User.bal (u : User) : Int :=
  match u.mode with
  | .trial => u.trial
  | .premium => u.premium

/-- Write the active-mode balance, `user[user["mode"]] = v`. -/
def User.setBal (u : User) (v : Int) : User :=
  match u.mode with
  | .trial => { u with trial := v }
  | .premium => { u with premium := v }

/-- Python `user[user["mode"]] += n`. -/
def User.credit (u : User) (n : Int) : User := u.setBal (u.bal + n)

/-- Python `user[user["mode"]] -= n`. -/
def User.debit (u : User) (n : Int) : User := u.setBal (u.bal - n)

/-- Python `user["bets"] += 1`. -/
def User.addBet (u : User) : User := { u with bets := u.bets + 1 }

/-- Python `user["wins"] += 1`. -/
def User.addWin (u : User) : User := { u with wins := u.wins + 1 }

/-- Python `user["losses"] += 1`. -/
def User.addLoss (u : User) : User := { u with losses := u.losses + 1 }

/-- Python `int(bet * m)` where the multiplier `m` is the exact decimal
`num/den`: for non-negative `bet` this is `⌊bet * num / den⌋`. -/
def payout (bet num den : Int) : Int := bet * num / den

/-- The table `ODDS_CONFIG["balance_thresholds"]` sorted by threshold descending,
as iterated by `get_user_win_rate` (0.10, 0.15, 0.25, 0.35 as exact
rationals). -/
def balance_thresholds : List (Int × ℚ) :=
  [(180000000000000, 1/10),
   (150000000000000, 3/20),
   (100000000000000, 1/4),
   (0, 7/20)]

/-- Function `get_user_win_rate`: first entry of the descending threshold table
whose threshold the balance reaches, defaulting to the rate of
threshold 0. -/
def get_user_win_rate (balance : Int) : ℚ :=
  match balance_thresholds.find? (fun p => p.1 ≤ balance) with
  | some p => p.2
  | none => 7/20

/-- Resolution of `CoinflipView.play_coinflip` after the bet is accepted: a coin is
drawn, the player wins iff the call matches and the house draw passes
`win_rate * base_odds` (0.30); a win credits `int(bet * 1.8)` (the
stake is not debited), a loss debits the stake. -/
def play_coinflip (u : User) (bet : Int) (choice coin : Bool) (draw : ℚ) : User :=
  let winRate := get_user_win_rate u.bal
  let u1 := u.addBet
  if choice = coin ∧ draw < winRate * (3/10) then
    (u1.addWin).credit (payout bet 9 5)
  else
    (u1.addLoss).debit bet

/-- The soft-ace loop of `BlackjackView.hand_value`: subtract 10 per ace
while the total exceeds 21. -/
def adjustAces : Nat → Nat → Nat
  | t, 0 => t
  | t, a + 1 => if 21 < t then adjustAces (t - 10) a else t

/-- Function `BlackjackView.hand_value` (aces are dealt as value 11). -/
def hand_value (hand : List Nat) : Nat := adjustAces hand.sum (hand.count 11)

/-- The dealer's drawing loop in `end_game`: hit while the hand value
is below 17, drawing successive cards from the shoe. -/
def dealer_play : List Nat → List Nat → List Nat
  | hand, [] => hand
  | hand, c :: rest =>
    if hand_value hand < 17 then dealer_play (hand ++ [c]) rest else hand

/-- Function `BlackjackView.end_game`: the dealer draws to 17+, then the natural
outcome (bust / dealer bust / higher hand / tie / lower hand) is
computed; a natural player win is gated by the house-edge draw against
`win_rate * base_odds` (0.35), a tie pushes, everything else loses the
stake.  `playerBusted` is true when `end_game` is reached with reason
`"bust"`. -/
def end_game (u : User) (bet : Int) (playerBusted : Bool)
    (playerHand dealerHand deck : List Nat) (draw : ℚ) : User :=
  let winChance := get_user_win_rate u.bal * (7/20)
  let dealerFinalHand := dealer_play dealerHand deck
  let pv := hand_value playerHand
  let dv := hand_value dealerFinalHand
  let u1 := u.addBet
  if playerBusted then
    (u1.addLoss).debit bet
  else if 21 < dv then
    if draw < winChance then (u1.addWin).credit (payout bet 11 5)
    else (u1.addLoss).debit bet
  else if dv < pv then
    if draw < winChance then (u1.addWin).credit (payout bet 11 5)
    else (u1.addLoss).debit bet
  else if pv = dv then
    u1
  else
    (u1.addLoss).debit bet

/-- Roulette colors. -/
inductive Color
  | red
  | black
  | green
deriving DecidableEq, Repr

/-- The wheel coloring in `spin_roulette`: 0 is green, even is red,
odd is black. -/
def roulette_color (roll : Nat) : Color :=
  if roll = 0 then .green
  else if roll % 2 = 0 then .red
  else .black

/-- Resolution of `RouletteView.spin_roulette` after the bet is accepted: the ball
lands on `roll`; on a color match the house draw is checked against
`win_rate * green_odds` (0.01, payout 12) or
`win_rate * red_black_odds` (0.25, payout `int(bet * 1.9)`); any
failure debits the stake. -/
def spin_roulette (u : User) (bet : Int) (choice : Color) (roll : Nat) (draw : ℚ) : User :=
  let winRate := get_user_win_rate u.bal
  let outcome := roulette_color roll
  let u1 := u.addBet
  if outcome = choice then
    if choice = .green then
      if draw < winRate * (1/100) then (u1.addWin).credit (payout bet 12 1)
      else (u1.addLoss).debit bet
    else
      if draw < winRate * (1/4) then (u1.addWin).credit (payout bet 19 10)
      else (u1.addLoss).debit bet
  else
    (u1.addLoss).debit bet

/-- The `slot` command's resolution after the bet is accepted: three
reel symbols; a triple match is gated by `win_rate * jackpot_odds`
(0.02, payout `int(bet * 4.5)`), a pair match by
`win_rate * 0.15` (payout `int(bet * 1.8)`), no match always loses. -/
def slot_resolve (u : User) (bet : Int) (s0 s1 s2 : Nat) (draw : ℚ) : User :=
  let u1 := u.addBet
  let winRate := get_user_win_rate u.bal
  if s0 = s1 ∧ s1 = s2 then
    if draw < winRate * (1/50) then (u1.addWin).credit (payout bet 9 2)
    else (u1.addLoss).debit bet
  else if s0 = s1 ∨ s1 = s2 ∨ s0 = s2 then
    if draw < winRate * (3/20) then (u1.addWin).credit (payout bet 9 5)
    else (u1.addLoss).debit bet
  else
    (u1.addLoss).debit bet

/-- The `dice` command's resolution after the bet is accepted: a roll
of 6 wins iff the draw is below the flat 0.70 (payout
`int(bet * 5.5)`), rolls 4-5 win iff the draw is below the flat 0.55
(payout `int(bet * 1.8)`), rolls 1-3 always lose; the tier win-rate
is never consulted. -/
def dice_resolve (u : User) (bet : Int) (roll : Nat) (draw : ℚ) : User :=
  let u1 := u.addBet
  if roll = 6 then
    if draw < 7/10 then (u1.addWin).credit (payout bet 11 2)
    else (u1.addLoss).debit bet
  else if 4 ≤ roll then
    if draw < 11/20 then (u1.addWin).credit (payout bet 9 5)
    else (u1.addLoss).debit bet
  else
    (u1.addLoss).debit bet

/-- The bet argument as the command sees it: the literal `"all"`, a
parsed integer amount, or input on which `parse_sheckles` raises. -/
inductive BetInput
  | allIn
  | amount (n : Int)
  | unparseable
deriving DecidableEq, Repr

/-- The amount a game command works with: `"all"` means the whole
active-mode balance, otherwise the parsed number; a parse failure is
`none`. -/
def parse_bet (u : User) (inp : BetInput) : Option Int :=
  match inp with
  | .unparseable => none
  | .allIn => some u.bal
  | .amount n => some n

/-- The validation shared by the five game commands: reject a parse
failure, and reject when `user[mode] < amt or amt <= 0`. -/
def validate_bet (u : User) (inp : BetInput) : Option Int :=
  match parse_bet u inp with
  | none => none
  | some amt => if u.bal < amt ∨ amt ≤ 0 then none else some amt

/-- The `coinflip` command: validate the bet, rejecting with the user
untouched, else resolve. -/
def coinflip_command (u : User) (inp : BetInput) (choice coin : Bool) (draw : ℚ) : User :=
  match validate_bet u inp with
  | none => u
  | some amt => play_coinflip u amt choice coin draw

/-- The `blackjack` command: validate the bet, rejecting with the user
untouched, else resolve via `end_game`. -/
def blackjack_command (u : User) (inp : BetInput) (playerBusted : Bool)
    (playerHand dealerHand deck : List Nat) (draw : ℚ) : User :=
  match validate_bet u inp with
  | none => u
  | some amt => end_game u amt playerBusted playerHand dealerHand deck draw

/-- The `roulette` command: validate the bet, rejecting with the user
untouched, else resolve. -/
def roulette_command (u : User) (inp : BetInput) (choice : Color) (roll : Nat) (draw : ℚ) : User :=
  match validate_bet u inp with
  | none => u
  | some amt => spin_roulette u amt choice roll draw

/-- The `slot` command: validate the bet, rejecting with the user
untouched, else resolve. -/
def slot_command (u : User) (inp : BetInput) (s0 s1 s2 : Nat) (draw : ℚ) : User :=
  match validate_bet u inp with
  | none => u
  | some amt => slot_resolve u amt s0 s1 s2 draw

/-- The `dice` command: validate the bet, rejecting with the user
untouched, else resolve. -/
def dice_command (u : User) (inp : BetInput) (roll : Nat) (draw : ℚ) : User :=
  match validate_bet u inp with
  | none => u
  | some amt => dice_resolve u amt roll draw

/-- Function `PvPCoinflipView.resolve_game`: both stakes are debited; if exactly
one call matches the coin that player collects `bet * 2`, otherwise
both stakes are returned. -/
def pvp_coinflip_resolve (p1 p2 : User) (bet : Int) (c1 c2 coin : Bool) : User × User :=
  let q1 := p1.debit bet
  let q2 := p2.debit bet
  if c1 = coin ∧ c2 ≠ coin then
    (q1.credit (bet * 2), q2)
  else if c2 = coin ∧ c1 ≠ coin then
    (q1, q2.credit (bet * 2))
  else
    (q1.credit bet, q2.credit bet)

/-- Function `PvPDiceView.resolve_game`: both stakes are debited; the higher
roll collects `bet * 2`, a tie returns both stakes. -/
def pvp_dice_resolve (p1 p2 : User) (bet : Int) (r1 r2 : Nat) : User × User :=
  let q1 := p1.debit bet
  let q2 := p2.debit bet
  if r2 < r1 then
    (q1.credit (bet * 2), q2)
  else if r1 < r2 then
    (q1, q2.credit (bet * 2))
  else
    (q1.credit bet, q2.credit bet)

/-!
Persistence/backup subsystem.  Files are identified by creation time
(`os.path.getctime`); successive file creations get strictly
increasing clock values, which is how the timestamped snapshots of
`create_backup` behave.  `snaps` are the files of `BACKUP_DIR` whose
names start with `balances_` or `casino_data_`; `others` are any other
files in the directory, which `cleanup_old_backups` never touches.
-/

/-- The backup directory plus the creation-time clock. -/
structure BackupState where
  snaps : List Nat
  others : List Nat
  clock : Nat
deriving DecidableEq, Repr

/-- Function `cleanup_old_backups`: sort the snapshot files by creation time
newest first and delete all but the first 10. -/
def cleanup_old_backups (s : BackupState) : BackupState :=
  { s with snaps := (s.snaps.insertionSort (fun a b => b ≤ a)).take 10 }

/-- Function `create_backup`: copy the store file (and the database file when it
exists) into the backup directory as fresh timestamped snapshots, then
prune.  `dataE`/`dbE` say whether `DATA_FILE`/`DB_FILE` exist. -/
def create_backup (dataE dbE : Bool) (s : BackupState) : BackupState :=
  let nf := (if dbE then [s.clock + 1] else []) ++ (if dataE then [s.clock] else [])
  cleanup_old_backups { s with snaps := nf ++ s.snaps, clock := s.clock + 2 }

/-- Iterates `create_backup` the given number of times. -/
def run_backups (dataE dbE : Bool) : Nat → BackupState → BackupState
  | 0, s => s
  | n + 1, s => run_backups dataE dbE n (create_backup dataE dbE s)

/-- The creation times of every snapshot file `n` backup operations
starting at clock `c` ever create, newest first. -/
def created_desc (dataE dbE : Bool) : Nat → Nat → List Nat
  | 0, _ => []
  | n + 1, c =>
    created_desc dataE dbE n (c + 2)
      ++ ((if dbE then [c + 1] else []) ++ (if dataE then [c] else []))

/-- The persisted ledger store: user ids mapped to their records
(content identity is all the restore claims need). -/
abbrev Store := List (String × Int)

/-- One comparison step of Python's `max(..., key=ctime)`: keep the
incumbent unless the candidate's creation time is strictly greater.
A backup file is a creation time paired with `some` parsed contents,
or `none` when `json.load` on it would raise; the max ranges over all
`balances_*.json` files, unparseable ones included. -/
def pick_newer (best x : Nat × Option Store) : Nat × Option Store :=
  if best.1 < x.1 then x else best

/-- The choice of file in `restore_from_backup`: `max(backup_files,
key=ctime)`, i.e. the first file attaining the maximal creation
time; `none` when the directory has no `balances_` backups. -/
def latest_backup : List (Nat × Option Store) → Option (Nat × Option Store)
  | [] => none
  | b :: bs => some (bs.foldl pick_newer b)

/-- Function `restore_from_backup`: pick the most recently created
`balances_` backup and `json.load` it; the whole call fails (returns
`False` in the source) when there is no backup file or when the chosen
newest file itself does not parse. -/
def restore_from_backup (backups : List (Nat × Option Store)) : Option Store :=
  match latest_backup backups with
  | none => none
  | some b => b.2

/-- Function `load_data`: a missing store file yields a fresh empty store; a
parseable store is returned as is; on a parse failure the restored
backup contents are returned, and when the restore fails (no backup,
or the newest backup itself unparseable) the store falls back to
empty. -/
def load_data (fileE : Bool) (parsed : Option Store)
    (backups : List (Nat × Option Store)) : Store :=
  if fileE then
    match parsed with
    | some d => d
    | none =>
      match restore_from_backup backups with
      | some s => s
      | none => []
  else
    []

/-! Projection lemmas for the ledger-entry operations. -/

@[simp]
theorem User.bal_setBal (u : User) (v : Int) : (u.setBal v).bal = v := by
  cases u with
  | mk t p m b w l => cases m <;> rfl

@[simp]
theorem User.bets_setBal (u : User) (v : Int) : (u.setBal v).bets = u.bets := by
  cases u with
  | mk t p m b w l => cases m <;> rfl

@[simp]
theorem User.wins_setBal (u : User) (v : Int) : (u.setBal v).wins = u.wins := by
  cases u with
  | mk t p m b w l => cases m <;> rfl

@[simp]
theorem User.losses_setBal (u : User) (v : Int) : (u.setBal v).losses = u.losses := by
  cases u with
  | mk t p m b w l => cases m <;> rfl

@[simp]
theorem User.bal_credit (u : User) (n : Int) : (u.credit n).bal = u.bal + n := by
  simp [User.credit]

@[simp]
theorem User.bal_debit (u : User) (n : Int) : (u.debit n).bal = u.bal - n := by
  simp [User.debit]

@[simp]
theorem User.bets_credit (u : User) (n : Int) : (u.credit n).bets = u.bets := by
  simp [User.credit]

@[simp]
theorem User.bets_debit (u : User) (n : Int) : (u.debit n).bets = u.bets := by
  simp [User.debit]

@[simp]
theorem User.wins_credit (u : User) (n : Int) : (u.credit n).wins = u.wins := by
  simp [User.credit]

@[simp]
theorem User.wins_debit (u : User) (n : Int) : (u.debit n).wins = u.wins := by
  simp [User.debit]

@[simp]
theorem User.losses_credit (u : User) (n : Int) : (u.credit n).losses = u.losses := by
  simp [User.credit]

@[simp]
theorem User.losses_debit (u : User) (n : Int) : (u.debit n).losses = u.losses := by
  simp [User.debit]

@[simp]
theorem User.bal_addBet (u : User) : u.addBet.bal = u.bal := by
  cases u with
  | mk t p m b w l => cases m <;> rfl

@[simp]
theorem User.bal_addWin (u : User) : u.addWin.bal = u.bal := by
  cases u with
  | mk t p m b w l => cases m <;> rfl

@[simp]
theorem User.bal_addLoss (u : User) : u.addLoss.bal = u.bal := by
  cases u with
  | mk t p m b w l => cases m <;> rfl

@[simp]
theorem User.bets_addBet (u : User) : u.addBet.bets = u.bets + 1 := rfl

@[simp]
theorem User.bets_addWin (u : User) : u.addWin.bets = u.bets := rfl

@[simp]
theorem User.bets_addLoss (u : User) : u.addLoss.bets = u.bets := rfl

@[simp]
theorem User.wins_addBet (u : User) : u.addBet.wins = u.wins := rfl

@[simp]
theorem User.wins_addWin (u : User) : u.addWin.wins = u.wins + 1 := rfl

@[simp]
theorem User.wins_addLoss (u : User) : u.addLoss.wins = u.wins := rfl

@[simp]
theorem User.losses_addBet (u : User) : u.addBet.losses = u.losses := rfl

@[simp]
theorem User.losses_addWin (u : User) : u.addWin.losses = u.losses := rfl

@[simp]
theorem User.losses_addLoss (u : User) : u.addLoss.losses = u.losses + 1 := rfl

@[simp]
theorem User.trial_addBet (u : User) : u.addBet.trial = u.trial := rfl

@[simp]
theorem User.premium_addBet (u : User) : u.addBet.premium = u.premium := rfl

/-- The tier lookup as a nested conditional, unfolding the descending
threshold table. -/
theorem get_user_win_rate_eq (b : Int) :
    get_user_win_rate b =
      if 180000000000000 ≤ b then 1/10
      else if 150000000000000 ≤ b then 3/20
      else if 100000000000000 ≤ b then 1/4
      else 7/20 := by
  by_cases h1 : (180000000000000 : Int) ≤ b
  · simp [get_user_win_rate, balance_thresholds, List.find?, h1]
  · by_cases h2 : (150000000000000 : Int) ≤ b
    · simp [get_user_win_rate, balance_thresholds, List.find?, h1, h2]
    · by_cases h3 : (100000000000000 : Int) ≤ b
      · simp [get_user_win_rate, balance_thresholds, List.find?, h1, h2, h3]
      · by_cases h4 : (0 : Int) ≤ b
        · simp [get_user_win_rate, balance_thresholds, List.find?, h1, h2, h3, h4]
        · simp [get_user_win_rate, balance_thresholds, List.find?, h1, h2, h3, h4]

/-- C5: the tier win-rate lookup is monotonically non-increasing in the
balance, and for every non-negative balance it returns the rate of the
highest configured threshold not exceeding it: 0.35 below 100T, 0.25
from 100T, 0.15 from 150T, 0.10 from 180T. -/
theorem win_rate_monotone_and_table :
    (∀ x y : Int, x ≤ y → get_user_win_rate y ≤ get_user_win_rate x) ∧
    (∀ b : Int, 0 ≤ b →
      (b < 100000000000000 → get_user_win_rate b = 7/20) ∧
      (100000000000000 ≤ b → b < 150000000000000 → get_user_win_rate b = 1/4) ∧
      (150000000000000 ≤ b → b < 180000000000000 → get_user_win_rate b = 3/20) ∧
      (180000000000000 ≤ b → get_user_win_rate b = 1/10)) := by
  constructor
  · intro x y hxy
    rw [get_user_win_rate_eq, get_user_win_rate_eq]
    split_ifs <;> first | (exfalso; omega) | norm_num
  · intro b hb
    refine ⟨fun h => ?_, fun h h' => ?_, fun h h' => ?_, fun h => ?_⟩ <;>
      rw [get_user_win_rate_eq] <;>
      split_ifs <;> first | rfl | (exfalso; omega)

/-- Witness for C5 at balances 0 and 100T. -/
theorem win_rate_monotone_and_table_witness :
    get_user_win_rate 100000000000000 ≤ get_user_win_rate 0 ∧
      get_user_win_rate 0 = 7/20 :=
  ⟨win_rate_monotone_and_table.1 0 100000000000000 (by decide),
   (win_rate_monotone_and_table.2 0 (by decide)).1 (by decide)⟩

/-- C6: a trial-mode user at 25T betting 10T on coinflip, calling heads,
with the coin landing heads and a passing house-check draw (below
win_rate 0.35 times base odds 0.30, i.e. 21/200), gains exactly
⌊10T * 1.8⌋ = 18T (the stake is not debited on a win), with
bet_count and win_count each up by one. -/
theorem coinflip_trial_scenario (draw : ℚ) (h : draw < 21/200) :
    play_coinflip ⟨25000000000000, 0, .trial, 0, 0, 0⟩ 10000000000000 true true draw =
      ⟨43000000000000, 0, .trial, 1, 1, 0⟩ := by
  have hrate : get_user_win_rate (User.bal ⟨25000000000000, 0, .trial, 0, 0, 0⟩) = 7/20 := by
    rw [get_user_win_rate_eq]
    norm_num [User.bal]
  have hmul : (7/20 : ℚ) * (3/10) = 21/200 := by norm_num
  simp only [play_coinflip, hrate, hmul]
  rw [if_pos ⟨trivial, h⟩]
  rfl

/-- Witness for C6 with house draw 0. -/
theorem coinflip_trial_scenario_witness :
    (0 : ℚ) < 21/200 ∧
      play_coinflip ⟨25000000000000, 0, .trial, 0, 0, 0⟩ 10000000000000 true true 0 =
        ⟨43000000000000, 0, .trial, 1, 1, 0⟩ :=
  ⟨by simp, coinflip_trial_scenario 0 (by simp)⟩

/-- What C1 asserts of one resolved game taking `u` to `v` on bet
`bet`: the active balance stays non-negative, a loss (loss counter up
by one) debits exactly the bet, and a non-loss (win or push) never
decreases the balance. -/
def outcome_ok (u v : User) (bet : Int) : Prop :=
  0 ≤ v.bal ∧
    (v.losses = u.losses + 1 → v.bal = u.bal - bet) ∧
    (v.losses = u.losses → u.bal ≤ v.bal)

theorem payout_nonneg (bet num den : Int) (hb : 0 ≤ bet) (hn : 0 ≤ num)
    (hd : 0 ≤ den) : 0 ≤ payout bet num den :=
  Int.ediv_nonneg (mul_nonneg hb hn) hd

theorem outcome_ok_win (u : User) (bet pay : Int) (hpos : 0 < bet)
    (hle : bet ≤ u.bal) (hp : 0 ≤ pay) :
    outcome_ok u (((u.addBet).addWin).credit pay) bet := by
  unfold outcome_ok
  simp
  omega

theorem outcome_ok_loss (u : User) (bet : Int) (hpos : 0 < bet)
    (hle : bet ≤ u.bal) :
    outcome_ok u (((u.addBet).addLoss).debit bet) bet := by
  unfold outcome_ok
  simp
  omega

theorem outcome_ok_push (u : User) (bet : Int) (hpos : 0 < bet)
    (hle : bet ≤ u.bal) :
    outcome_ok u (u.addBet) bet := by
  unfold outcome_ok
  simp
  omega

/-- C1: for every single-player game and every bet with
`0 < bet ≤ balance`, resolving the game keeps the active-mode balance
non-negative; a loss debits exactly the bet, a win or push never
decreases the balance. -/
theorem single_player_balance_safety (u : User) (bet : Int)
    (hpos : 0 < bet) (hle : bet ≤ u.bal) :
    (∀ choice coin draw, outcome_ok u (play_coinflip u bet choice coin draw) bet) ∧
    (∀ pb ph dh dk draw, outcome_ok u (end_game u bet pb ph dh dk draw) bet) ∧
    (∀ c roll draw, outcome_ok u (spin_roulette u bet c roll draw) bet) ∧
    (∀ s0 s1 s2 draw, outcome_ok u (slot_resolve u bet s0 s1 s2 draw) bet) ∧
    (∀ roll draw, outcome_ok u (dice_resolve u bet roll draw) bet) := by
  have hpay : ∀ num den : Int, 0 ≤ num → 0 ≤ den → 0 ≤ payout bet num den :=
    fun num den hn hd => payout_nonneg bet num den (le_of_lt hpos) hn hd
  refine ⟨?_, ?_, ?_, ?_, ?_⟩
  · intro choice coin draw
    simp only [play_coinflip]
    split_ifs
    · exact outcome_ok_win u bet _ hpos hle (hpay 9 5 (by norm_num) (by norm_num))
    · exact outcome_ok_loss u bet hpos hle
  · intro pb ph dh dk draw
    simp only [end_game]
    split_ifs
    · exact outcome_ok_loss u bet hpos hle
    · exact outcome_ok_win u bet _ hpos hle (hpay 11 5 (by norm_num) (by norm_num))
    · exact outcome_ok_loss u bet hpos hle
    · exact outcome_ok_win u bet _ hpos hle (hpay 11 5 (by norm_num) (by norm_num))
    · exact outcome_ok_loss u bet hpos hle
    · exact outcome_ok_push u bet hpos hle
    · exact outcome_ok_loss u bet hpos hle
  · intro c roll draw
    simp only [spin_roulette]
    split_ifs
    · exact outcome_ok_win u bet _ hpos hle (hpay 12 1 (by norm_num) (by norm_num))
    · exact outcome_ok_loss u bet hpos hle
    · exact outcome_ok_win u bet _ hpos hle (hpay 19 10 (by norm_num) (by norm_num))
    · exact outcome_ok_loss u bet hpos hle
    · exact outcome_ok_loss u bet hpos hle
  · intro s0 s1 s2 draw
    simp only [slot_resolve]
    split_ifs
    · exact outcome_ok_win u bet _ hpos hle (hpay 9 2 (by norm_num) (by norm_num))
    · exact outcome_ok_loss u bet hpos hle
    · exact outcome_ok_win u bet _ hpos hle (hpay 9 5 (by norm_num) (by norm_num))
    · exact outcome_ok_loss u bet hpos hle
    · exact outcome_ok_loss u bet hpos hle
  · intro roll draw
    simp only [dice_resolve]
    split_ifs
    · exact outcome_ok_win u bet _ hpos hle (hpay 11 2 (by norm_num) (by norm_num))
    · exact outcome_ok_loss u bet hpos hle
    · exact outcome_ok_win u bet _ hpos hle (hpay 9 5 (by norm_num) (by norm_num))
    · exact outcome_ok_loss u bet hpos hle
    · exact outcome_ok_loss u bet hpos hle

/-- Witness for C1: a trial user with balance 100 betting 50, one
concrete randomness choice per game. -/
theorem single_player_balance_safety_witness :
    (0 : Int) < 50 ∧ (50 : Int) ≤ User.bal ⟨100, 0, .trial, 0, 0, 0⟩ ∧
      (outcome_ok ⟨100, 0, .trial, 0, 0, 0⟩
        (play_coinflip ⟨100, 0, .trial, 0, 0, 0⟩ 50 true false 0) 50 ∧
       outcome_ok ⟨100, 0, .trial, 0, 0, 0⟩
        (end_game ⟨100, 0, .trial, 0, 0, 0⟩ 50 false [10, 10] [10, 9] [] 0) 50 ∧
       outcome_ok ⟨100, 0, .trial, 0, 0, 0⟩
        (spin_roulette ⟨100, 0, .trial, 0, 0, 0⟩ 50 .red 1 0) 50 ∧
       outcome_ok ⟨100, 0, .trial, 0, 0, 0⟩
        (slot_resolve ⟨100, 0, .trial, 0, 0, 0⟩ 50 0 1 2 0) 50 ∧
       outcome_ok ⟨100, 0, .trial, 0, 0, 0⟩
        (dice_resolve ⟨100, 0, .trial, 0, 0, 0⟩ 50 2 0) 50) :=
  ⟨by decide, by decide,
   (single_player_balance_safety ⟨100, 0, .trial, 0, 0, 0⟩ 50 (by decide) (by decide)).1
     true false 0,
   (single_player_balance_safety ⟨100, 0, .trial, 0, 0, 0⟩ 50 (by decide) (by decide)).2.1
     false [10, 10] [10, 9] [] 0,
   (single_player_balance_safety ⟨100, 0, .trial, 0, 0, 0⟩ 50 (by decide) (by decide)).2.2.1
     .red 1 0,
   (single_player_balance_safety ⟨100, 0, .trial, 0, 0, 0⟩ 50 (by decide) (by decide)).2.2.2.1
     0 1 2 0,
   (single_player_balance_safety ⟨100, 0, .trial, 0, 0, 0⟩ 50 (by decide) (by decide)).2.2.2.2
     2 0⟩

/-- C2: a bet that is unparseable, non-positive, or exceeding the
active-mode balance makes every game command return with the user
entirely unchanged: no balance and no counter moves. -/
theorem invalid_bet_rejected (u : User) (inp : BetInput)
    (h : inp = .unparseable ∨ ∃ n, inp = .amount n ∧ (n ≤ 0 ∨ u.bal < n)) :
    (∀ choice coin draw, coinflip_command u inp choice coin draw = u) ∧
    (∀ pb ph dh dk draw, blackjack_command u inp pb ph dh dk draw = u) ∧
    (∀ c roll draw, roulette_command u inp c roll draw = u) ∧
    (∀ s0 s1 s2 draw, slot_command u inp s0 s1 s2 draw = u) ∧
    (∀ roll draw, dice_command u inp roll draw = u) := by
  have hv : validate_bet u inp = none := by
    rcases h with h | ⟨n, rfl, hn⟩
    · subst h; rfl
    · simp only [validate_bet, parse_bet]
      rw [if_pos]
      tauto
  refine ⟨?_, ?_, ?_, ?_, ?_⟩ <;> intros <;>
    simp [coinflip_command, blackjack_command, roulette_command, slot_command,
      dice_command, hv]

/-- Witness for C2: the zero bet is rejected by all five commands. -/
theorem invalid_bet_rejected_witness :
    coinflip_command ⟨100, 0, .trial, 0, 0, 0⟩ (.amount 0) true true 0 =
        ⟨100, 0, .trial, 0, 0, 0⟩ ∧
      blackjack_command ⟨100, 0, .trial, 0, 0, 0⟩ (.amount 0) false [] [] [] 0 =
        ⟨100, 0, .trial, 0, 0, 0⟩ ∧
      roulette_command ⟨100, 0, .trial, 0, 0, 0⟩ (.amount 0) .red 1 0 =
        ⟨100, 0, .trial, 0, 0, 0⟩ ∧
      slot_command ⟨100, 0, .trial, 0, 0, 0⟩ (.amount 0) 0 0 0 0 =
        ⟨100, 0, .trial, 0, 0, 0⟩ ∧
      dice_command ⟨100, 0, .trial, 0, 0, 0⟩ (.amount 0) 1 0 =
        ⟨100, 0, .trial, 0, 0, 0⟩ :=
  ⟨(invalid_bet_rejected _ _ (Or.inr ⟨0, rfl, Or.inl (by decide)⟩)).1 true true 0,
   (invalid_bet_rejected _ _ (Or.inr ⟨0, rfl, Or.inl (by decide)⟩)).2.1 false [] [] [] 0,
   (invalid_bet_rejected _ _ (Or.inr ⟨0, rfl, Or.inl (by decide)⟩)).2.2.1 .red 1 0,
   (invalid_bet_rejected _ _ (Or.inr ⟨0, rfl, Or.inl (by decide)⟩)).2.2.2.1 0 0 0 0,
   (invalid_bet_rejected _ _ (Or.inr ⟨0, rfl, Or.inl (by decide)⟩)).2.2.2.2 1 0⟩

/-- C3: in blackjack, when the player has not busted and the final
hand values tie, the game pushes for every house-edge draw: both
balances unchanged, bet counter up by one, win and loss counters
unchanged. -/
theorem blackjack_tie_pushes (u : User) (bet : Int) (ph dh dk : List Nat)
    (draw : ℚ) (hnb : hand_value ph ≤ 21)
    (htie : hand_value (dealer_play dh dk) = hand_value ph) :
    (end_game u bet false ph dh dk draw).trial = u.trial ∧
      (end_game u bet false ph dh dk draw).premium = u.premium ∧
      (end_game u bet false ph dh dk draw).bets = u.bets + 1 ∧
      (end_game u bet false ph dh dk draw).wins = u.wins ∧
      (end_game u bet false ph dh dk draw).losses = u.losses := by
  have h21 : ¬ 21 < hand_value ph := by omega
  refine ⟨?_, ?_, ?_, ?_, ?_⟩ <;> simp [end_game, htie, h21]

/-- Witness for C3: both hands stand at 20, dealer already at 17+. -/
theorem blackjack_tie_pushes_witness :
    hand_value [10, 10] ≤ 21 ∧
      hand_value (dealer_play [10, 10] []) = hand_value [10, 10] ∧
      ((end_game ⟨100, 0, .trial, 0, 0, 0⟩ 50 false [10, 10] [10, 10] [] 0).trial = 100 ∧
        (end_game ⟨100, 0, .trial, 0, 0, 0⟩ 50 false [10, 10] [10, 10] [] 0).bets = 1 ∧
        (end_game ⟨100, 0, .trial, 0, 0, 0⟩ 50 false [10, 10] [10, 10] [] 0).wins = 0 ∧
        (end_game ⟨100, 0, .trial, 0, 0, 0⟩ 50 false [10, 10] [10, 10] [] 0).losses = 0) :=
  ⟨by decide, by decide,
   (blackjack_tie_pushes ⟨100, 0, .trial, 0, 0, 0⟩ 50 [10, 10] [10, 10] [] 0
       (by decide) (by decide)).1,
   (blackjack_tie_pushes ⟨100, 0, .trial, 0, 0, 0⟩ 50 [10, 10] [10, 10] [] 0
       (by decide) (by decide)).2.2.1,
   (blackjack_tie_pushes ⟨100, 0, .trial, 0, 0, 0⟩ 50 [10, 10] [10, 10] [] 0
       (by decide) (by decide)).2.2.2.1,
   (blackjack_tie_pushes ⟨100, 0, .trial, 0, 0, 0⟩ 50 [10, 10] [10, 10] [] 0
       (by decide) (by decide)).2.2.2.2⟩

/-- C4: in the dice game a roll of 6 wins exactly when the draw is
below 0.70 and pays ⌊bet * 5.5⌋, rolls 4 and 5 win exactly when the
draw is below 0.55 and pay ⌊bet * 1.8⌋, and rolls 1-3 lose the bet for
every draw; the winning condition never consults the user's balances
or the tier win-rate (the user is arbitrary and absent from every
condition). -/
theorem dice_outcome_spec (u : User) (bet : Int) (roll : Nat) (draw : ℚ)
    (hpos : 0 < bet) (hle : bet ≤ u.bal) :
    (dice_resolve u bet roll draw).bets = u.bets + 1 ∧
    (roll = 6 →
      (draw < 7/10 →
        (dice_resolve u bet roll draw).bal = u.bal + payout bet 11 2 ∧
          (dice_resolve u bet roll draw).wins = u.wins + 1 ∧
          (dice_resolve u bet roll draw).losses = u.losses) ∧
      (¬ draw < 7/10 →
        (dice_resolve u bet roll draw).bal = u.bal - bet ∧
          (dice_resolve u bet roll draw).losses = u.losses + 1 ∧
          (dice_resolve u bet roll draw).wins = u.wins)) ∧
    (roll = 4 ∨ roll = 5 →
      (draw < 11/20 →
        (dice_resolve u bet roll draw).bal = u.bal + payout bet 9 5 ∧
          (dice_resolve u bet roll draw).wins = u.wins + 1 ∧
          (dice_resolve u bet roll draw).losses = u.losses) ∧
      (¬ draw < 11/20 →
        (dice_resolve u bet roll draw).bal = u.bal - bet ∧
          (dice_resolve u bet roll draw).losses = u.losses + 1 ∧
          (dice_resolve u bet roll draw).wins = u.wins)) ∧
    (1 ≤ roll → roll ≤ 3 →
      (dice_resolve u bet roll draw).bal = u.bal - bet ∧
        (dice_resolve u bet roll draw).losses = u.losses + 1 ∧
        (dice_resolve u bet roll draw).wins = u.wins) := by
  refine ⟨?_, ?_, ?_, ?_⟩
  · simp only [dice_resolve]
    split_ifs <;> simp
  · rintro rfl
    constructor
    · intro hd
      simp [dice_resolve, hd]
    · intro hd
      simp [dice_resolve, hd]
  · rintro (rfl | rfl) <;> constructor <;> intro hd <;> simp [dice_resolve, hd]
  · intro h1 h3
    have hne : roll ≠ 6 := by omega
    have hlt : ¬ 4 ≤ roll := by omega
    simp [dice_resolve, hne, hlt]

/-- Witness for C4: bet 50 from balance 100; roll 6 with draw 0 pays
⌊50 * 5.5⌋ = 275, roll 1 loses the bet. -/
theorem dice_outcome_spec_witness :
    (dice_resolve ⟨100, 0, .trial, 0, 0, 0⟩ 50 6 0).bal =
        User.bal ⟨100, 0, .trial, 0, 0, 0⟩ + payout 50 11 2 ∧
      (dice_resolve ⟨100, 0, .trial, 0, 0, 0⟩ 50 1 0).bal =
        User.bal ⟨100, 0, .trial, 0, 0, 0⟩ - 50 :=
  ⟨(((dice_outcome_spec ⟨100, 0, .trial, 0, 0, 0⟩ 50 6 0 (by decide) (by decide)).2.1
      rfl).1 (by simp)).1,
   ((dice_outcome_spec ⟨100, 0, .trial, 0, 0, 0⟩ 50 1 0 (by decide) (by decide)).2.2.2
      (by decide) (by decide)).1⟩

/-- C7: a resolved PvP coinflip or PvP dice match is exactly zero-sum:
the two balance deltas always cancel; with a winner the winner's
active-mode balance moves by +stake and the loser's by -stake, and a
tie leaves both balances unchanged. -/
theorem pvp_zero_sum (p1 p2 : User) (bet : Int) (c1 c2 coin : Bool) (r1 r2 : Nat) :
    (((pvp_coinflip_resolve p1 p2 bet c1 c2 coin).1.bal - p1.bal) +
        ((pvp_coinflip_resolve p1 p2 bet c1 c2 coin).2.bal - p2.bal) = 0) ∧
    (c1 = coin ∧ c2 ≠ coin →
      (pvp_coinflip_resolve p1 p2 bet c1 c2 coin).1.bal = p1.bal + bet ∧
        (pvp_coinflip_resolve p1 p2 bet c1 c2 coin).2.bal = p2.bal - bet) ∧
    (c2 = coin ∧ c1 ≠ coin →
      (pvp_coinflip_resolve p1 p2 bet c1 c2 coin).2.bal = p2.bal + bet ∧
        (pvp_coinflip_resolve p1 p2 bet c1 c2 coin).1.bal = p1.bal - bet) ∧
    (c1 = c2 →
      (pvp_coinflip_resolve p1 p2 bet c1 c2 coin).1.bal = p1.bal ∧
        (pvp_coinflip_resolve p1 p2 bet c1 c2 coin).2.bal = p2.bal) ∧
    (((pvp_dice_resolve p1 p2 bet r1 r2).1.bal - p1.bal) +
        ((pvp_dice_resolve p1 p2 bet r1 r2).2.bal - p2.bal) = 0) ∧
    (r2 < r1 →
      (pvp_dice_resolve p1 p2 bet r1 r2).1.bal = p1.bal + bet ∧
        (pvp_dice_resolve p1 p2 bet r1 r2).2.bal = p2.bal - bet) ∧
    (r1 < r2 →
      (pvp_dice_resolve p1 p2 bet r1 r2).2.bal = p2.bal + bet ∧
        (pvp_dice_resolve p1 p2 bet r1 r2).1.bal = p1.bal - bet) ∧
    (r1 = r2 →
      (pvp_dice_resolve p1 p2 bet r1 r2).1.bal = p1.bal ∧
        (pvp_dice_resolve p1 p2 bet r1 r2).2.bal = p2.bal) := by
  refine ⟨?_, ?_, ?_, ?_, ?_, ?_, ?_, ?_⟩
  · cases c1 <;> cases c2 <;> cases coin <;> simp [pvp_coinflip_resolve] <;> omega
  · intro h
    cases c1 <;> cases c2 <;> cases coin <;>
      simp_all [pvp_coinflip_resolve] <;> omega
  · intro h
    cases c1 <;> cases c2 <;> cases coin <;>
      simp_all [pvp_coinflip_resolve] <;> omega
  · intro h
    cases c1 <;> cases c2 <;> cases coin <;>
      simp_all [pvp_coinflip_resolve] <;> omega
  · simp only [pvp_dice_resolve]
    split_ifs <;> simp <;> omega
  · intro h
    simp [pvp_dice_resolve, h] <;> omega
  · intro h
    have h' : ¬ r2 < r1 := Nat.lt_asymm h
    simp [pvp_dice_resolve, h, h'] <;> omega
  · intro h
    subst h
    simp [pvp_dice_resolve] <;> omega

/-- Witness for C7: stakes of 5, player 1 calls the coin right, and a
dice duel where player 1 rolls 6 against 2. -/
theorem pvp_zero_sum_witness :
    (((pvp_coinflip_resolve ⟨1000, 0, .trial, 0, 0, 0⟩ ⟨0, 2000, .premium, 0, 0, 0⟩
          5 true false true).1.bal - 1000) +
        ((pvp_coinflip_resolve ⟨1000, 0, .trial, 0, 0, 0⟩ ⟨0, 2000, .premium, 0, 0, 0⟩
          5 true false true).2.bal - 2000) = 0) ∧
      ((pvp_dice_resolve ⟨1000, 0, .trial, 0, 0, 0⟩ ⟨0, 2000, .premium, 0, 0, 0⟩
          5 6 2).1.bal = 1005 ∧
        (pvp_dice_resolve ⟨1000, 0, .trial, 0, 0, 0⟩ ⟨0, 2000, .premium, 0, 0, 0⟩
          5 6 2).2.bal = 1995) :=
  ⟨(pvp_zero_sum ⟨1000, 0, .trial, 0, 0, 0⟩ ⟨0, 2000, .premium, 0, 0, 0⟩
      5 true false true 6 2).1,
   (pvp_zero_sum ⟨1000, 0, .trial, 0, 0, 0⟩ ⟨0, 2000, .premium, 0, 0, 0⟩
      5 true false true 6 2).2.2.2.2.2.1 (by decide)⟩

/-- C10: in PvP coinflip, identical calls always tie (both stakes
refunded, even when both calls miss the coin), while different calls
make a tie impossible: the player whose call matches the coin nets
+stake and the other nets -stake. -/
theorem pvp_coinflip_match_structure (p1 p2 : User) (bet : Int) (c1 c2 coin : Bool) :
    (c1 = c2 →
      (pvp_coinflip_resolve p1 p2 bet c1 c2 coin).1.bal = p1.bal ∧
        (pvp_coinflip_resolve p1 p2 bet c1 c2 coin).2.bal = p2.bal) ∧
    (c1 ≠ c2 →
      (c1 = coin →
        (pvp_coinflip_resolve p1 p2 bet c1 c2 coin).1.bal = p1.bal + bet ∧
          (pvp_coinflip_resolve p1 p2 bet c1 c2 coin).2.bal = p2.bal - bet) ∧
      (c2 = coin →
        (pvp_coinflip_resolve p1 p2 bet c1 c2 coin).2.bal = p2.bal + bet ∧
          (pvp_coinflip_resolve p1 p2 bet c1 c2 coin).1.bal = p1.bal - bet)) := by
  cases c1 <;> cases c2 <;> cases coin <;>
    simp [pvp_coinflip_resolve] <;> omega

/-- Witness for C10: both players call heads against tails (a tie with
both calls wrong), and a heads-vs-tails duel on heads. -/
theorem pvp_coinflip_match_structure_witness :
    ((pvp_coinflip_resolve ⟨1000, 0, .trial, 0, 0, 0⟩ ⟨0, 2000, .premium, 0, 0, 0⟩
        5 true true false).1.bal = 1000 ∧
      (pvp_coinflip_resolve ⟨1000, 0, .trial, 0, 0, 0⟩ ⟨0, 2000, .premium, 0, 0, 0⟩
        5 true true false).2.bal = 2000) ∧
      ((pvp_coinflip_resolve ⟨1000, 0, .trial, 0, 0, 0⟩ ⟨0, 2000, .premium, 0, 0, 0⟩
          5 true false true).1.bal = 1005 ∧
        (pvp_coinflip_resolve ⟨1000, 0, .trial, 0, 0, 0⟩ ⟨0, 2000, .premium, 0, 0, 0⟩
          5 true false true).2.bal = 1995) :=
  ⟨(pvp_coinflip_match_structure ⟨1000, 0, .trial, 0, 0, 0⟩ ⟨0, 2000, .premium, 0, 0, 0⟩
      5 true true false).1 rfl,
   ((pvp_coinflip_match_structure ⟨1000, 0, .trial, 0, 0, 0⟩ ⟨0, 2000, .premium, 0, 0, 0⟩
      5 true false true).2 (by decide)).1 rfl⟩

/-! Backup pruning: invariants of the backup directory. -/

/-- Invariant of the backup directory between operations: the pruned
snapshot list is newest-first, every creation time precedes the clock,
and at most 10 snapshot files are present. -/
def BackupInv (s : BackupState) : Prop :=
  s.snaps.Sorted (fun a b => b ≤ a) ∧ (∀ x ∈ s.snaps, x < s.clock) ∧ s.snaps.length ≤ 10

theorem sorted_new_files (dataE dbE : Bool) (c : Nat) (L : List Nat)
    (hs : L.Sorted (fun a b => b ≤ a)) (hb : ∀ x ∈ L, x < c) :
    (((if dbE then [c + 1] else []) ++ (if dataE then [c] else [])) ++ L).Sorted
      (fun a b => b ≤ a) := by
  cases dataE <;> cases dbE <;>
    simp_all [List.sorted_cons] <;>
    first
      | exact fun x hx => by have := hb x hx; omega
      | exact ⟨fun x hx => by have := hb x hx; omega,
          fun x hx => by have := hb x hx; omega⟩

/-- One backup operation, assuming the directory invariant: the fresh
snapshot files go in front and the list is cut back to 10. -/
theorem create_backup_eq (dataE dbE : Bool) (s : BackupState) (h : BackupInv s) :
    create_backup dataE dbE s =
      { snaps := (((if dbE then [s.clock + 1] else []) ++
            (if dataE then [s.clock] else [])) ++ s.snaps).take 10,
        others := s.others, clock := s.clock + 2 } := by
  have hs := sorted_new_files dataE dbE s.clock s.snaps h.1 h.2.1
  simp only [create_backup, cleanup_old_backups]
  rw [List.Sorted.insertionSort_eq hs]

theorem BackupInv_create (dataE dbE : Bool) (s : BackupState) (h : BackupInv s) :
    BackupInv (create_backup dataE dbE s) := by
  rw [create_backup_eq dataE dbE s h]
  refine ⟨?_, ?_, ?_⟩
  · exact (sorted_new_files dataE dbE s.clock s.snaps h.1 h.2.1).sublist
      (List.take_sublist 10 _)
  · intro x hx
    show x < s.clock + 2
    have hx' := (List.take_sublist 10 _).subset hx
    rcases List.mem_append.mp hx' with hx'' | hx''
    · cases dataE <;> cases dbE <;> simp_all <;> omega
    · have := h.2.1 x hx''
      omega
  · show (List.take 10 _).length ≤ 10
    exact List.length_take_le 10 _

theorem take_append_take (A B : List Nat) (k : Nat) :
    (A ++ B.take k).take k = (A ++ B).take k := by
  have hmin : (k - A.length) ⊓ k = k - A.length := inf_eq_left.mpr (Nat.sub_le _ _)
  rw [List.take_append_eq_append_take, List.take_take, hmin,
    ← List.take_append_eq_append_take]

theorem run_backups_eq (dataE dbE : Bool) (n : Nat) (s : BackupState)
    (h : BackupInv s) :
    (run_backups dataE dbE n s).snaps =
        (created_desc dataE dbE n s.clock ++ s.snaps).take 10 ∧
      (run_backups dataE dbE n s).others = s.others := by
  induction n generalizing s with
  | zero =>
    refine ⟨?_, rfl⟩
    show s.snaps = (([] : List Nat) ++ s.snaps).take 10
    rw [List.nil_append]
    exact (List.take_of_length_le h.2.2).symm
  | succ n ih =>
    have h' := BackupInv_create dataE dbE s h
    obtain ⟨ihs, iho⟩ := ih (create_backup dataE dbE s) h'
    have hcb := create_backup_eq dataE dbE s h
    constructor
    · show (run_backups dataE dbE n (create_backup dataE dbE s)).snaps = _
      rw [ihs, hcb]
      show (created_desc dataE dbE n (s.clock + 2) ++
          ((((if dbE then [s.clock + 1] else []) ++
            (if dataE then [s.clock] else [])) ++ s.snaps).take 10)).take 10 = _
      rw [take_append_take, ← List.append_assoc]
      rfl
    · show (run_backups dataE dbE n (create_backup dataE dbE s)).others = _
      rw [iho, hcb]

theorem created_desc_length_ge (dbE : Bool) (n c : Nat) :
    n ≤ (created_desc true dbE n c).length := by
  induction n generalizing c with
  | zero => simp [created_desc]
  | succ n ih =>
    have := ih (c + 2)
    cases dbE <;> simp [created_desc] <;> omega

/-- C8: starting from an empty backup directory with the store file
present, after more than 10 backup operations exactly 10 snapshot
files remain, they are precisely the first 10 entries of the
newest-first creation history (the 10 most recently created snapshot
files), and files without a snapshot prefix are untouched. -/
theorem backup_prune_keeps_ten (n : Nat) (dbE : Bool) (os : List Nat) (c : Nat)
    (hn : 10 < n) :
    (run_backups true dbE n ⟨[], os, c⟩).snaps =
        (created_desc true dbE n c).take 10 ∧
      (run_backups true dbE n ⟨[], os, c⟩).snaps.length = 10 ∧
      (run_backups true dbE n ⟨[], os, c⟩).others = os := by
  have hinv : BackupInv ⟨[], os, c⟩ := ⟨by simp, by simp, by simp⟩
  obtain ⟨h1, h2⟩ := run_backups_eq true dbE n ⟨[], os, c⟩ hinv
  simp only [List.append_nil] at h1
  refine ⟨h1, ?_, h2⟩
  rw [h1, List.length_take]
  have := created_desc_length_ge dbE n c
  omega

/-- Witness for C8: eleven backup operations with only the store file
present leave exactly 10 snapshots, the newest 10. -/
theorem backup_prune_keeps_ten_witness :
    (run_backups true false 11 ⟨[], [], 0⟩).snaps =
        (created_desc true false 11 0).take 10 ∧
      (run_backups true false 11 ⟨[], [], 0⟩).snaps.length = 10 ∧
      (run_backups true false 11 ⟨[], [], 0⟩).others = [] :=
  backup_prune_keeps_ten 11 false [] 0 (by decide)

theorem foldl_pick_newer_spec (bs : List (Nat × Option Store)) (acc : Nat × Option Store) :
    (bs.foldl pick_newer acc = acc ∨ bs.foldl pick_newer acc ∈ bs) ∧
      acc.1 ≤ (bs.foldl pick_newer acc).1 ∧
      ∀ x ∈ bs, x.1 ≤ (bs.foldl pick_newer acc).1 := by
  induction bs generalizing acc with
  | nil => exact ⟨Or.inl rfl, le_refl _, by simp⟩
  | cons y ys ih =>
    obtain ⟨hmem, hacc, hall⟩ := ih (pick_newer acc y)
    have hstep : acc.1 ≤ (pick_newer acc y).1 := by
      unfold pick_newer
      split_ifs with hc
      · omega
      · exact le_refl _
    have hy : y.1 ≤ (pick_newer acc y).1 := by
      unfold pick_newer
      split_ifs with hc
      · exact le_refl _
      · omega
    refine ⟨?_, le_trans hstep hacc, ?_⟩
    · show List.foldl pick_newer (pick_newer acc y) ys = acc ∨
        List.foldl pick_newer (pick_newer acc y) ys ∈ y :: ys
      rcases hmem with h | h
      · rw [h]
        unfold pick_newer
        split_ifs with hc
        · exact Or.inr (List.mem_cons_self _ _)
        · exact Or.inl rfl
      · exact Or.inr (List.mem_cons_of_mem _ h)
    · intro x hx
      rcases List.mem_cons.mp hx with rfl | hx'
      · exact le_trans hy hacc
      · exact hall x hx'

theorem latest_backup_spec (b : Nat × Option Store) (bs : List (Nat × Option Store)) :
    ∃ m, latest_backup (b :: bs) = some m ∧ m ∈ b :: bs ∧
      ∀ x ∈ b :: bs, x.1 ≤ m.1 := by
  obtain ⟨hmem, hacc, hall⟩ := foldl_pick_newer_spec bs b
  refine ⟨bs.foldl pick_newer b, rfl, ?_, ?_⟩
  · rcases hmem with h | h
    · rw [h]
      exact List.mem_cons_self _ _
    · exact List.mem_cons_of_mem _ h
  · intro x hx
    rcases List.mem_cons.mp hx with rfl | hx'
    · exact hacc
    · exact hall x hx'

/-- Counterexample to C9 as stated: the store is corrupt, a valid
backup exists (creation time 1, contents `[("alice", 5)]`), but the
most recently created backup (creation time 3) is itself unparseable,
so `load_data` returns the empty store rather than the contents of any
backup. -/
theorem load_corrupt_newest_counterexample :
    ((1 : Nat), some [("alice", (5 : Int))]) ∈
        [((1 : Nat), some [("alice", (5 : Int))]), (3, (none : Option Store))] ∧
      load_data true none
        [((1 : Nat), some [("alice", (5 : Int))]), (3, (none : Option Store))] = [] ∧
      load_data true none
        [((1 : Nat), some [("alice", (5 : Int))]), (3, (none : Option Store))] ≠
        [("alice", (5 : Int))] :=
  ⟨by simp, rfl, by decide⟩

/-- C9 (amended): when the store file exists but its content does not
parse, `load_data` restores from the backup of maximal creation time
(the most recently created one): if that backup is valid its contents
are returned exactly, and if it is itself unparseable — or no backup
exists at all — the empty store is returned. -/
theorem load_restores_latest_backup (backups : List (Nat × Option Store)) :
    (backups = [] → load_data true none backups = []) ∧
      (∀ b bs, backups = b :: bs →
        ∃ m, m ∈ backups ∧ (∀ x ∈ backups, x.1 ≤ m.1) ∧
          (∀ s, m.2 = some s → load_data true none backups = s) ∧
          (m.2 = none → load_data true none backups = [])) := by
  constructor
  · rintro rfl
    rfl
  · rintro b bs rfl
    obtain ⟨m, hm, hmem, hall⟩ := latest_backup_spec b bs
    refine ⟨m, hmem, hall, ?_, ?_⟩
    · intro s hs
      simp [load_data, restore_from_backup, hm, hs]
    · intro hs
      simp [load_data, restore_from_backup, hm, hs]

/-- Witness for C9: a corrupt store with two valid backups restores
the newer one (creation time 3). -/
theorem load_restores_latest_backup_witness :
    ∃ m, m ∈ [((1 : Nat), some [("alice", (5 : Int))]), (3, some [("bob", (7 : Int))])] ∧
      (∀ x ∈ [((1 : Nat), some [("alice", (5 : Int))]), (3, some [("bob", (7 : Int))])],
        x.1 ≤ m.1) ∧
      (∀ s, m.2 = some s →
        load_data true none
          [((1 : Nat), some [("alice", (5 : Int))]), (3, some [("bob", (7 : Int))])] = s) ∧
      (m.2 = none →
        load_data true none
          [((1 : Nat), some [("alice", (5 : Int))]), (3, some [("bob", (7 : Int))])] = []) :=
  (load_restores_latest_backup [(1, some [("alice", 5)]), (3, some [("bob", 7)])]).2
    (1, some [("alice", 5)]) [(3, some [("bob", 7)])] rfl

end Casino
